import Mathlib

/-!
Verification of `examples/scripts/rootDir/process.py`, a CSV/JSON record
pipeline: a Reader (`read_csv`, `read_json`), a Transformer (`process_data`
with the two operations `filter_empty` and `add_timestamp`) and a Writer
(`write_csv`, `write_json`), dispatched by `main` on file extensions.

Modelling conventions (shallow embedding):
* A Python dict (one record) is an association list `List (String × JValue)`
  in insertion order; Python dicts have pairwise distinct keys, so theorems
  about arbitrary records carry `Nodup` hypotheses where key uniqueness
  matters.
* A JSON-compatible Python value is `JValue`; Python truthiness (`if v`) is
  the Boolean `truthy`.  JSON numbers are modelled as integers (`Int`); no
  claim exercises floats.  `JValue` is a mutual inductive block (with
  `JList` for nested lists and `JFields` for nested dicts) so that the
  serializers are structurally recursive and kernel-reducible.
* A CSV file is modelled at the cell level as `List (List String)`: the list
  of rows the stdlib csv codec decodes/encodes.  The codec itself (RFC-4180
  quoting) is the Python standard library, not repository code, and is
  assumed to round-trip rows of cells faithfully.
* `datetime.now().isoformat()` is modelled as an opaque string parameter
  `now`, computed once per `process_data` call exactly as the source
  computes the timestamp once per run of the operation.
* File-system effects are modelled by value: `write_csv` returns the rows
  it writes (`none` when it returns before opening the file), or an error
  for the `ValueError` that `csv.DictWriter` raises; `write_json` returns
  the text it writes.  `mainRun` takes the outcomes that opening/parsing
  the input path would produce and returns the observable outcome (exit
  code, stderr lines, whether the input was opened, what was written).
-/

set_option autoImplicit false

namespace ProcessPy

mutual
/-- JSON-compatible Python values: strings, integers, booleans, `None`,
lists and dicts (dicts in insertion order). -/
inductive JValue where
  | str (s : String)
  | num (n : Int)
  | bool (b : Bool)
  | null
  | arr (elems : JList)
  | obj (fields : JFields)

/-- A list of JSON values (the nested-list payload of `JValue.arr`). -/
inductive JList where
  | nil
  | cons (head : JValue) (tail : JList)

/-- The key/value fields of a nested JSON object, in insertion order. -/
inductive JFields where
  | nil
  | cons (key : String) (value : JValue) (tail : JFields)
end

/-- Emptiness of a nested JSON list (Python truthiness of a list). -/
def JList.isNil : JList → Bool
  | .nil => true
  | .cons _ _ => false

/-- Emptiness of a nested JSON object (Python truthiness of a dict). -/
def JFields.isNil : JFields → Bool
  | .nil => true
  | .cons _ _ _ => false

/-- A record: one Python dict mapping field names to values, in insertion
order. -/
abbrev Record := List (String × JValue)

/-- Conversion of a `Record` into the field list of a `JValue.obj`; the two
types represent the same Python dict. -/
def recordFields : Record → JFields
  | [] => .nil
  | (k, v) :: rest => .cons k v (recordFields rest)

/-- Python truthiness of a JSON-compatible value, as used by `if v` in the
dict comprehension of `process_data`: empty string, zero, `False`, `None`,
empty list and empty dict are falsy. -/
def truthy : JValue → Bool
  | .str s => !(s == "")
  | .num n => !(n == 0)
  | .bool b => b
  | .null => false
  | .arr elems => !elems.isNil
  | .obj fields => !fields.isNil

/-- Python dict lookup on the association-list model: the value at the
first occurrence of the key, if any. -/
def dictGet (k : String) : Record → Option JValue
  | [] => none
  | (k', v) :: rest => if k' = k then some v else dictGet k rest

/-- Python dict assignment `d[k] = v`: an existing key keeps its position
and gets the new value; a new key is appended at the end. -/
def setKey (item : Record) (k : String) (v : JValue) : Record :=
  if item.any (fun kv => kv.1 == k) then
    item.map (fun kv => if kv.1 = k then (k, v) else kv)
  else
    item ++ [(k, v)]

/-- The `filter_empty` body applied to one record:
`{k: v for k, v in item.items() if v}`. -/
def filterRecord (item : Record) : Record :=
  item.filter (fun kv => truthy kv.2)

/-- Model of `process_data(data, operations)` from the source: first, when
`'filter_empty' in operations`, drop falsy-valued entries from every record;
then, when `'add_timestamp' in operations`, compute one timestamp (the
parameter `now` stands for `datetime.now().isoformat()`, evaluated once at
that point) and store it under the key `timestamp` in every record. -/
def process_data (data : List Record) (operations : List String) (now : String) :
    List Record :=
  let result := data
  let result :=
    if "filter_empty" ∈ operations then result.map filterRecord else result
  let result :=
    if "add_timestamp" ∈ operations then
      result.map (fun item => setKey item "timestamp" (JValue.str now))
    else result
  result

/-- One row of `csv.DictReader`: the header keys are zipped with the row's
cells; when the row is shorter than the header, the remaining keys get the
reader's `restval`, which is `None`.  (When a row is longer than the header,
CPython collects the extra cells under the key `None`; a `None` key is not
representable with text keys and no claim exercises that case, so the extra
cells are dropped here.) -/
def dictReadRow (header row : List String) : Record :=
  (header.zip row).map (fun p => (p.1, JValue.str p.2)) ++
    (header.drop row.length).map (fun k => (k, JValue.null))

/-- Model of `read_csv` from the source, over the codec-decoded rows of the file:
`csv.DictReader` takes the first row as the header and turns every later
row into one record; blank rows (decoded as `[]`) are skipped by the
reader. -/
def read_csv (file : List (List String)) : List Record :=
  match file with
  | [] => []
  | header :: rows =>
      (rows.filter (fun row => !row.isEmpty)).map (fun row => dictReadRow header row)

/-! The CSV writer.

`write_csv` uses `csv.DictWriter(f, fieldnames=data[0].keys())` followed by
`writeheader()` and `writerows(data)`.  `DictWriter` has `restval=''` and
`extrasaction='raise'` by default: a record key missing from `fieldnames`
raises `ValueError("dict contains fields not in fieldnames: ...")`, and a
`fieldnames` key missing from a record produces the cell `''`.  The cells
of a row are obtained by key lookup (`rowdict.get(key, restval)` for the
fieldnames in order) and rendered by the csv codec, which writes a `None`
field as the empty cell and applies `str()` to every other value. -/

/-- Lower-case hex digit of a value below 16, as in Python's escape
sequences. -/
def hexDigit (n : Nat) : Char :=
  if n < 10 then Char.ofNat (48 + n) else Char.ofNat (87 + n)

/-- Two-digit lower-case hex rendering of a value below 256, as in
Python's `\xXX` escapes. -/
def hex2 (n : Nat) : String :=
  String.mk [hexDigit (n / 16 % 16), hexDigit (n % 16)]

/-- Four-digit lower-case hex rendering of a value below 65536. -/
def hex4 (n : Nat) : String :=
  String.mk [hexDigit (n / 4096 % 16), hexDigit (n / 256 % 16),
    hexDigit (n / 16 % 16), hexDigit (n % 16)]

/-- The quote character CPython `repr` picks for a string: single quotes,
unless the string contains a single quote and no double quote. -/
def pyQuoteChar (s : String) : Char :=
  if s.data.contains (Char.ofNat 39) && !(s.data.contains '"') then '"'
  else Char.ofNat 39

/-- Escaping of one character of a Python `repr` string literal under the
chosen quote character: backslash and the quote itself are
backslash-escaped, tab/newline/carriage-return use the short escapes, the
other ASCII control characters and DEL become `\xXX`, and printable
characters are literal.  (CPython also hex-escapes the non-printable
characters beyond ASCII, by Unicode category; those tables are not
modelled, non-ASCII characters are passed through literally, and no
claim's theorem reaches them.) -/
def pyEscapeChar (quote : Char) (c : Char) : String :=
  if c = '\\' then "\\\\"
  else if c = quote then "\\" ++ String.mk [quote]
  else if c = '\t' then "\\t"
  else if c = '\n' then "\\n"
  else if c = '\r' then "\\r"
  else if c.toNat < 32 ∨ c.toNat = 127 then "\\x" ++ hex2 c.toNat
  else String.mk [c]

/-- Python `repr` of a string: the escaped text between the chosen
quotes. -/
def pyStrRepr (s : String) : String :=
  let q := pyQuoteChar s
  String.mk [q] ++ String.join (s.data.map (pyEscapeChar q)) ++ String.mk [q]

mutual
/-- Python `repr` of a JSON-compatible value, as used by `str()` on lists
and dicts: strings quoted and escaped as CPython `repr` does,
`None`/`True`/`False` by name, containers with `', '`-separated entries. -/
def pyRepr : JValue → String
  | .str s => pyStrRepr s
  | .num n => toString n
  | .bool b => if b then "True" else "False"
  | .null => "None"
  | .arr elems => "[" ++ String.intercalate ", " (pyReprList elems) ++ "]"
  | .obj fields => "\x7b" ++ String.intercalate ", " (pyReprFields fields) ++ "\x7d"

/-- Python `repr` of the elements of a nested list. -/
def pyReprList : JList → List String
  | .nil => []
  | .cons v tail => pyRepr v :: pyReprList tail

/-- Python `repr` of the fields of a nested dict, each as `key: value`
with both sides in `repr` form. -/
def pyReprFields : JFields → List String
  | .nil => []
  | .cons k v tail => (pyStrRepr k ++ ": " ++ pyRepr v) :: pyReprFields tail
end

/-- The text the csv codec writes for one field value: CPython's csv
writer special-cases `None` to the empty cell and applies `str()` to
everything else — strings are written as themselves, integers and booleans
as their `str()` forms, and containers fall back to their `repr`. -/
def csvCell : JValue → String
  | .null => ""
  | .str s => s
  | .num n => toString n
  | .bool b => if b then "True" else "False"
  | .arr elems => pyRepr (.arr elems)
  | .obj fields => pyRepr (.obj fields)

/-- Scalar JSON values: the values whose csv cell never involves the
container `repr` fallback. -/
def JValue.isScalar : JValue → Bool
  | .arr _ => false
  | .obj _ => false
  | _ => true

/-- One output row of `csv.DictWriter`: for each header key in order, the
record's value at that key rendered as its csv cell, or `restval` `''`
when the record lacks the key. -/
def dictToRow (header : List String) (item : Record) : List String :=
  header.map (fun k =>
    match dictGet k item with
    | some v => csvCell v
    | none => "")

/-- The error message of the `ValueError` that `csv.DictWriter` raises for
a record with keys outside `fieldnames` (CPython appends the offending
keys; the claims only depend on the failure itself). -/
def wrongFieldsMsg : String := "dict contains fields not in fieldnames"

/-- Model of `writerows` of `csv.DictWriter` over the records, in order: fails at
the first record having a key outside the header, otherwise produces one
row per record.  (CPython has already written the rows preceding a failing
record; the partially written file content is not modelled, no claim
depends on it.) -/
def rowsOf (header : List String) : List Record → Except String (List (List String))
  | [] => .ok []
  | item :: rest =>
      if item.any (fun kv => !header.contains kv.1) then .error wrongFieldsMsg
      else
        match rowsOf header rest with
        | .error e => .error e
        | .ok rows => .ok (dictToRow header item :: rows)

/-- Model of `write_csv` from the source: an empty dataset returns before opening
the file (`none` = no file content written, file not created); otherwise
the header is the first record's keys in iteration order, followed by one
row per record; a record with keys outside the header raises. -/
def write_csv (data : List Record) : Except String (Option (List (List String))) :=
  match data with
  | [] => .ok none
  | first :: _ =>
      let header := first.map Prod.fst
      match rowsOf header data with
      | .error e => .error e
      | .ok rows => .ok (some (header :: rows))

/-! The JSON writer.

`write_json` is `json.dump(data, f, indent=2)`: 2-space indentation,
item separator `','` + newline, key separator `': '`, `ensure_ascii=True`
(non-ASCII characters are `\uXXXX`-escaped). -/

/-- JSON escaping of one character with `ensure_ascii=True`: printable
ASCII apart from `"` and `\` is literal, the standard short escapes are
used, every other character becomes `\uXXXX` (a surrogate pair beyond the
basic plane). -/
def jsonEscapeChar (c : Char) : String :=
  if c = '"' then "\\\""
  else if c = '\\' then "\\\\"
  else if c = '\n' then "\\n"
  else if c = '\r' then "\\r"
  else if c = '\t' then "\\t"
  else if c = Char.ofNat 8 then "\\b"
  else if c = Char.ofNat 12 then "\\f"
  else if c.toNat < 32 then "\\u" ++ hex4 c.toNat
  else if c.toNat < 127 then String.mk [c]
  else if c.toNat < 65536 then "\\u" ++ hex4 c.toNat
  else
    "\\u" ++ hex4 (55296 + (c.toNat - 65536) / 1024) ++
      "\\u" ++ hex4 (56320 + (c.toNat - 65536) % 1024)

/-- A JSON string literal: the escaped text between double quotes. -/
def jsonQuote (s : String) : String :=
  "\"" ++ String.join (s.data.map jsonEscapeChar) ++ "\""

/-- Indentation of `n` spaces. -/
def spaces (n : Nat) : String := String.mk (List.replicate n ' ')

mutual
/-- Model of `json.dumps` with `indent=2` at a given nesting level: scalars inline;
a non-empty array or object opens its bracket, lists its entries each on
its own line indented two more spaces, separated by `',' + newline`, and
closes the bracket on a fresh line at the current indentation. -/
def jsonDumps : JValue → Nat → String
  | .str s, _ => jsonQuote s
  | .num n, _ => toString n
  | .bool b, _ => if b then "true" else "false"
  | .null, _ => "null"
  | .arr .nil, _ => "[]"
  | .arr elems, lvl =>
      "[\n" ++ String.intercalate ",\n" (jsonDumpsList elems (lvl + 1)) ++
        "\n" ++ spaces (2 * lvl) ++ "]"
  | .obj .nil, _ => "\x7b\x7d"
  | .obj fields, lvl =>
      "\x7b\n" ++ String.intercalate ",\n" (jsonDumpsFields fields (lvl + 1)) ++
        "\n" ++ spaces (2 * lvl) ++ "\x7d"

/-- The serialized elements of an array, each indented to its level. -/
def jsonDumpsList : JList → Nat → List String
  | .nil, _ => []
  | .cons v tail, lvl =>
      (spaces (2 * lvl) ++ jsonDumps v lvl) :: jsonDumpsList tail lvl

/-- The serialized fields of an object, each as `"key": value` indented to
its level. -/
def jsonDumpsFields : JFields → Nat → List String
  | .nil, _ => []
  | .cons k v tail, lvl =>
      (spaces (2 * lvl) ++ jsonQuote k ++ ": " ++ jsonDumps v lvl)
        :: jsonDumpsFields tail lvl
end

/-- Model of `write_json` from the source: `json.dump(data, f, indent=2)`; the
returned string is the file content written. -/
def write_json (data : List Record) : String :=
  jsonDumps (JValue.arr (data.foldr (fun r acc => JList.cons (JValue.obj (recordFields r)) acc) JList.nil)) 0

/-! CLI dispatch: the model of `main`. -/

/-- ASCII lower-casing, as `str.lower()` applies to the extensions in
`main` (extensions are ASCII; Python's `lower` is Unicode-aware). -/
def lowerStr (s : String) : String := String.mk (s.data.map Char.toLower)

/-- The extension part of `os.path.splitext(p)[1]`: the suffix of the
basename (the part after the last `/`) starting at its last dot, provided
some earlier character of the basename is not a dot; otherwise the empty
string (so `archive.tar.gz ↦ .gz`, `noext ↦ ''`, `.bashrc ↦ ''`). -/
def extOf (p : String) : String :=
  let base := (p.data.reverse.takeWhile (fun c => c ≠ '/')).reverse
  let afterDotRev := base.reverse.takeWhile (fun c => c ≠ '.')
  if afterDotRev.length = base.length then ""
  else
    let stem := base.take (base.length - afterDotRev.length - 1)
    if stem.any (fun c => c ≠ '.') then String.mk ('.' :: afterDotRev.reverse)
    else ""

/-- The observable outcome of one run of `main`: the exit code, the lines
printed to stderr, whether the input path was opened (file I/O attempted),
and the content written to the output path in either format (`none` when
the output path is never created or written). -/
structure MainOutcome where
  exitCode : Nat
  stderr : List String
  openedInput : Bool
  csvOutput : Option (List (List String))
  jsonOutput : Option String
deriving DecidableEq

/-- The pipeline of `main` after a successful read: build the operations
list (always `filter_empty` before `add_timestamp`, independent of flag
order on the command line), run `process_data`, then dispatch on the
output extension. -/
def afterRead (outputExt : String) (filterEmptyFlag addTimestampFlag : Bool)
    (now : String) (data : List Record) : MainOutcome :=
  let operations :=
    (if filterEmptyFlag then ["filter_empty"] else []) ++
      (if addTimestampFlag then ["add_timestamp"] else [])
  let processed := process_data data operations now
  if outputExt = ".csv" then
    match write_csv processed with
    | .ok content => ⟨0, [], true, content, none⟩
    | .error e => ⟨1, ["写入文件失败: " ++ e], true, none, none⟩
  else if outputExt = ".json" then
    ⟨0, [], true, none, some (write_json processed)⟩
  else
    ⟨1, ["不支持的输出文件类型: " ++ outputExt], true, none, none⟩

/-- Model of `main` from the source, over the results that opening and parsing the
input path would yield: detect both formats from the lower-cased
extensions, read (csv or json) or reject the input, then transform and
write.  `csvRead` is the codec-decoded row list of the input file and
`jsonRead` the parsed JSON document (an array of objects; a document of
any other shape fails later in `process_data`, which no claim exercises),
each an `Except` carrying the message of a read failure. -/
def mainRun (inputPath outputPath : String) (filterEmptyFlag addTimestampFlag : Bool)
    (csvRead : Except String (List (List String)))
    (jsonRead : Except String (List Record)) (now : String) : MainOutcome :=
  let inputExt := lowerStr (extOf inputPath)
  let outputExt := lowerStr (extOf outputPath)
  if inputExt = ".csv" then
    match csvRead with
    | .error e => ⟨1, ["读取文件失败: " ++ e], true, none, none⟩
    | .ok rows => afterRead outputExt filterEmptyFlag addTimestampFlag now (read_csv rows)
  else if inputExt = ".json" then
    match jsonRead with
    | .error e => ⟨1, ["读取文件失败: " ++ e], true, none, none⟩
    | .ok data => afterRead outputExt filterEmptyFlag addTimestampFlag now data
  else
    ⟨1, ["不支持的输入文件类型: " ++ inputExt], false, none, none⟩

/-! Helper lemmas about the transformer. -/

/-- The per-record effect of one `process_data` run: filter when requested,
then stamp when requested. -/
def perRecord (operations : List String) (now : String) (item : Record) : Record :=
  let filtered := if "filter_empty" ∈ operations then filterRecord item else item
  if "add_timestamp" ∈ operations then
    setKey filtered "timestamp" (JValue.str now)
  else filtered

/-- Both branches of `process_data` are maps over the dataset, so the whole
transformer is one map of the per-record effect. -/
theorem process_data_eq_map (data : List Record) (operations : List String) (now : String) :
    process_data data operations now = data.map (perRecord operations now) := by
  unfold process_data perRecord
  by_cases h1 : "filter_empty" ∈ operations <;>
    by_cases h2 : "add_timestamp" ∈ operations <;>
      simp [h1, h2, List.map_map, Function.comp_def]

/-- Unfolding of `dictGet` on the empty record. -/
@[simp] theorem dictGet_nil (k : String) : dictGet k [] = none := rfl

/-- Unfolding of `dictGet` on a non-empty record. -/
@[simp] theorem dictGet_cons (k k1 : String) (v1 : JValue) (rest : Record) :
    dictGet k ((k1, v1) :: rest) = if k1 = k then some v1 else dictGet k rest := rfl

/-- Appending a fresh key at the end of a record makes it findable when no
earlier entry carries it. -/
theorem dictGet_append_fresh (k : String) (v : JValue) :
    ∀ item : Record, (∀ kv ∈ item, kv.1 ≠ k) →
      dictGet k (item ++ [(k, v)]) = some v := by
  intro item
  induction item with
  | nil => intro; simp
  | cons hd tl ih =>
    intro h
    obtain ⟨k1, v1⟩ := hd
    have hne : k1 ≠ k := h (k1, v1) (List.mem_cons_self _ _)
    simp only [List.cons_append, dictGet_cons]
    rw [if_neg hne]
    exact ih (fun kv hkv => h kv (List.mem_cons_of_mem _ hkv))

/-- Overwriting the value at a present key makes the new value the lookup
result. -/
theorem dictGet_map_overwrite (k : String) (v : JValue) :
    ∀ item : Record, item.any (fun kv => kv.1 == k) = true →
      dictGet k (item.map (fun kv => if kv.1 = k then (k, v) else kv)) = some v := by
  intro item
  induction item with
  | nil => intro h; simp at h
  | cons hd tl ih =>
    intro h
    obtain ⟨k1, v1⟩ := hd
    by_cases hh : k1 = k
    · subst hh; simp
    · have htl : tl.any (fun kv => kv.1 == k) = true := by
        simp only [List.any_cons] at h
        rcases Bool.or_eq_true_iff.mp h with h' | h'
        · exact absurd (by simpa using h') hh
        · exact h'
      simpa [hh] using ih htl

/-- Looking up a key right after `setKey` on that key yields the assigned
value, whether the key was present (overwrite in place) or not (append). -/
theorem dictGet_setKey (item : Record) (k : String) (v : JValue) :
    dictGet k (setKey item k v) = some v := by
  unfold setKey
  by_cases h : item.any (fun kv => kv.1 == k) = true
  · rw [if_pos h]
    exact dictGet_map_overwrite k v item h
  · rw [if_neg h]
    refine dictGet_append_fresh k v item (fun kv hkv hk => h ?_)
    exact List.any_eq_true.2 ⟨kv, hkv, by simp [hk]⟩

/-- Every record produced by a `process_data` run that includes
`add_timestamp` carries the single timestamp value under `timestamp`. -/
theorem timestamp_everywhere (data : List Record) (operations : List String)
    (now : String) (h : "add_timestamp" ∈ operations) :
    ∀ r ∈ process_data data operations now,
      dictGet "timestamp" r = some (JValue.str now) := by
  intro r hr
  rw [process_data_eq_map] at hr
  obtain ⟨item, -, rfl⟩ := List.mem_map.1 hr
  unfold perRecord
  rw [if_pos h]
  exact dictGet_setKey ..

/-- Filtering one record twice equals filtering it once. -/
theorem filterRecord_idem (item : Record) :
    filterRecord (filterRecord item) = filterRecord item := by
  simp [filterRecord, List.filter_filter]

/-- C5: `filter_empty` is idempotent — running `process_data` with only
`filter_empty` a second time (with any timestamps) returns the first run's
dataset unchanged. -/
theorem filter_empty_idempotent (data : List Record) (now now' : String) :
    process_data (process_data data ["filter_empty"] now) ["filter_empty"] now' =
      process_data data ["filter_empty"] now := by
  simp only [process_data_eq_map, List.map_map]
  refine List.map_congr_left (fun item _ => ?_)
  simp [perRecord, Function.comp_def, filterRecord_idem]

/-- C9: the transformer is shape-preserving — the output has exactly as
many records as the input, its `i`-th record is the per-record effect of
the `i`-th input record (same relative order), and when neither operation
is requested the dataset is returned unchanged. -/
theorem process_data_preserves_shape (data : List Record) (operations : List String)
    (now : String) :
    (process_data data operations now).length = data.length ∧
    (∀ i : Nat, (process_data data operations now)[i]? =
      (data[i]?).map (perRecord operations now)) ∧
    ("filter_empty" ∉ operations → "add_timestamp" ∉ operations →
      process_data data operations now = data) := by
  refine ⟨by simp [process_data_eq_map], fun i => by simp [process_data_eq_map], ?_⟩
  intro h1 h2
  simp [process_data, h1, h2]

/-- Witness for C9 at a concrete dataset: one record, no operations. -/
theorem process_data_preserves_shape_witness :
    (process_data [[("a", JValue.str "x")]] [] "T0").length = 1 ∧
    process_data [[("a", JValue.str "x")]] [] "T0" = [[("a", JValue.str "x")]] := by
  have h := process_data_preserves_shape [[("a", JValue.str "x")]] [] "T0"
  exact ⟨h.1, h.2.2 (by simp) (by simp)⟩

/-- C3: when `add_timestamp` is requested on a dataset, every record of the
output carries the identical single timestamp value (the one string computed
when the operation runs, modelled by the parameter `now`) under the key
`timestamp`. -/
theorem add_timestamp_uniform (data : List Record) (operations : List String)
    (now : String) (h : "add_timestamp" ∈ operations) :
    (process_data data operations now).length = data.length ∧
    ∀ r ∈ process_data data operations now,
      dictGet "timestamp" r = some (JValue.str now) := by
  exact ⟨by simp [process_data_eq_map], timestamp_everywhere data operations now h⟩

/-- Witness for C3 on a two-record dataset: both records hold the same
timestamp string. -/
theorem add_timestamp_uniform_witness :
    ("add_timestamp" ∈ (["add_timestamp"] : List String)) ∧
    dictGet "timestamp" [("a", JValue.str "x"), ("timestamp", JValue.str "T0")] =
      some (JValue.str "T0") ∧
    dictGet "timestamp" [("timestamp", JValue.str "T0")] = some (JValue.str "T0") := by
  have h := add_timestamp_uniform [[("a", JValue.str "x")], []] ["add_timestamp"] "T0"
    (by simp)
  refine ⟨by simp, ?_, ?_⟩
  · exact h.2 [("a", JValue.str "x"), ("timestamp", JValue.str "T0")]
      (by rw [show process_data [[("a", JValue.str "x")], []] ["add_timestamp"] "T0" =
        [[("a", JValue.str "x"), ("timestamp", JValue.str "T0")],
         [("timestamp", JValue.str "T0")]] from rfl]; simp)
  · exact h.2 [("timestamp", JValue.str "T0")]
      (by rw [show process_data [[("a", JValue.str "x")], []] ["add_timestamp"] "T0" =
        [[("a", JValue.str "x"), ("timestamp", JValue.str "T0")],
         [("timestamp", JValue.str "T0")]] from rfl]; simp)

/-- C4: whenever both operation names are requested — in whatever order the
operations list holds them — the run equals `filter_empty` alone followed by
`add_timestamp` alone, and (so) every output record keeps its timestamp
field: the timestamp is added after the filter and is never subject to it,
even when the timestamp string is itself falsy. -/
theorem operations_fixed_order (data : List Record) (operations : List String)
    (now : String) (h1 : "filter_empty" ∈ operations)
    (h2 : "add_timestamp" ∈ operations) :
    process_data data operations now =
      process_data (process_data data ["filter_empty"] now) ["add_timestamp"] now ∧
    ∀ r ∈ process_data data operations now,
      dictGet "timestamp" r = some (JValue.str now) := by
  constructor
  · simp [process_data, h1, h2]
  · exact timestamp_everywhere data operations now h2

/-- Witness for C4 with the operations listed in the reverse order
(`add_timestamp` before `filter_empty`) and an empty — falsy — timestamp
string: the empty-valued field `a` is dropped, and the `timestamp` field
survives with its empty value because it is added after the filter. -/
theorem operations_fixed_order_witness :
    ("filter_empty" ∈ (["add_timestamp", "filter_empty"] : List String)) ∧
    ("add_timestamp" ∈ (["add_timestamp", "filter_empty"] : List String)) ∧
    process_data [[("a", JValue.str ""), ("b", JValue.str "x")]]
      ["add_timestamp", "filter_empty"] "" =
      [[("b", JValue.str "x"), ("timestamp", JValue.str "")]] ∧
    dictGet "timestamp" [("b", JValue.str "x"), ("timestamp", JValue.str "")] =
      some (JValue.str "") := by
  have h := operations_fixed_order [[("a", JValue.str ""), ("b", JValue.str "x")]]
    ["add_timestamp", "filter_empty"] "" (by simp) (by simp)
  refine ⟨by simp, by simp, h.1.trans rfl, ?_⟩
  exact h.2 [("b", JValue.str "x"), ("timestamp", JValue.str "")]
    (by rw [show process_data [[("a", JValue.str ""), ("b", JValue.str "x")]]
      ["add_timestamp", "filter_empty"] "" =
      [[("b", JValue.str "x"), ("timestamp", JValue.str "")]] from rfl]; simp)

/-- Emptiness test the spec describes for CSV-sourced values: exactly the
empty string. -/
def isEmptyStr : JValue → Bool
  | .str s => s == ""
  | _ => false

/-- C10: on a record all of whose values are strings (the CSV-sourced
case), the `filter_empty` body removes exactly the entries whose value is
the empty string and keeps every other entry in order — in particular the
strings `"0"`, `"false"` and whitespace-only strings are kept. -/
theorem filterRecord_csv_strings (item : Record)
    (h : ∀ kv ∈ item, ∃ s, kv.2 = JValue.str s) :
    filterRecord item = item.filter (fun kv => !isEmptyStr kv.2) := by
  unfold filterRecord
  refine List.filter_congr (fun kv hkv => ?_)
  obtain ⟨s, hs⟩ := h kv hkv
  simp [hs, truthy, isEmptyStr]

/-! Helper lemmas about the writers. -/

/-- Bridging `List.contains` (the Boolean membership used by the writer
model) and propositional membership for string keys. -/
theorem contains_iff_mem (l : List String) (a : String) :
    l.contains a = true ↔ a ∈ l :=
  List.elem_iff

/-- When every key of every record lies in the header, `writerows` succeeds
and produces one row per record, keyed lookups in header order. -/
theorem rowsOf_ok (header : List String) :
    ∀ data : List Record, (∀ r ∈ data, ∀ kv ∈ r, kv.1 ∈ header) →
      rowsOf header data = .ok (data.map (dictToRow header)) := by
  intro data
  induction data with
  | nil => intro; rfl
  | cons r rest ih =>
    intro h
    have hr : (r.any fun kv => !header.contains kv.1) = false := by
      rw [List.any_eq_false]
      intro kv hkv
      simpa using h r (List.mem_cons_self _ _) kv hkv
    have hcond : ¬((r.any fun kv => !header.contains kv.1) = true) := by
      intro hcontra
      rw [hr] at hcontra
      exact absurd hcontra (by simp)
    simp only [rowsOf, List.map_cons]
    rw [if_neg hcond,
      ih (fun r' hr' kv hkv => h r' (List.mem_cons_of_mem _ hr') kv hkv)]

/-- When some record has a key outside the header, `writerows` raises the
`ValueError`. -/
theorem rowsOf_fails (header : List String) :
    ∀ data : List Record, (∃ r ∈ data, ∃ kv ∈ r, kv.1 ∉ header) →
      rowsOf header data = .error wrongFieldsMsg := by
  intro data
  induction data with
  | nil => rintro ⟨r, hr, -⟩; exact absurd hr (List.not_mem_nil r)
  | cons r rest ih =>
    rintro ⟨r', hr', kv, hkv, hnot⟩
    simp only [rowsOf]
    by_cases hany : (r.any fun kv => !header.contains kv.1) = true
    · rw [if_pos hany]
    · rw [if_neg hany]
      rcases List.mem_cons.1 hr' with rfl | hmem
      · exfalso
        apply hany
        rw [List.any_eq_true]
        exact ⟨kv, hkv, by simpa using hnot⟩
      · rw [ih ⟨r', hmem, kv, hkv, hnot⟩]

/-- Lookup in the empty record, and lookup after a cons, in terms of key
absence. -/
theorem dictGet_eq_none_iff (k : String) :
    ∀ r : Record, dictGet k r = none ↔ k ∉ r.map Prod.fst := by
  intro r
  induction r with
  | nil => simp
  | cons hd tl ih =>
    obtain ⟨k1, v1⟩ := hd
    by_cases h : k1 = k
    · subst h; simp
    · simp [h, ih, Ne.symm h]

/-- A successful lookup locates an actual entry of the record. -/
theorem dictGet_mem (k : String) (v : JValue) :
    ∀ r : Record, dictGet k r = some v → (k, v) ∈ r := by
  intro r
  induction r with
  | nil => simp
  | cons hd tl ih =>
    obtain ⟨k1, v1⟩ := hd
    by_cases h : k1 = k
    · subst h
      intro hv
      rw [dictGet_cons, if_pos rfl] at hv
      have hv1 : v1 = v := by simpa using hv
      subst hv1
      exact List.mem_cons_self _ _
    · intro hv
      rw [dictGet_cons, if_neg h] at hv
      exact List.mem_cons_of_mem _ (ih hv)

/-- Lookup in a record whose entries are generated per key from a list of
keys. -/
theorem dictGet_map_self (k : String) (f : String → JValue) :
    ∀ header : List String,
      dictGet k (header.map (fun k' => (k', f k'))) =
        if k ∈ header then some (f k) else none := by
  intro header
  induction header with
  | nil => simp
  | cons h1 t ih =>
    by_cases h : h1 = k
    · subst h; simp [ih]
    · simp [h, ih, Ne.symm h]

/-- Reading back a full-length row generated per header key gives the
record with exactly those generated string cells. -/
theorem dictReadRow_map (header : List String) (f : String → String) :
    dictReadRow header (header.map f) =
      header.map (fun k => (k, JValue.str (f k))) := by
  unfold dictReadRow
  rw [List.length_map, List.drop_length]
  have hzip : header.zip (header.map f) = header.map (fun k => (k, f k)) := by
    have h := List.zip_map' id f header
    simpa using h
  rw [hzip]
  simp [List.map_map, Function.comp_def]

/-- Writing one record as a row under a header covering exactly its key set
and reading the row back yields a record with the same lookup at every key,
provided the record's values are strings. -/
theorem readback_dict_eq (header : List String) (r : Record)
    (hk : ∀ k : String, k ∈ r.map Prod.fst ↔ k ∈ header)
    (hs : ∀ kv ∈ r, ∃ s, kv.2 = JValue.str s) :
    ∀ k : String,
      dictGet k (dictReadRow header (dictToRow header r)) = dictGet k r := by
  intro k
  have hrow : dictToRow header r =
      header.map (fun k' =>
        match dictGet k' r with
        | some v => csvCell v
        | none => "") := rfl
  rw [hrow, dictReadRow_map, dictGet_map_self]
  by_cases hmem : k ∈ header
  · rw [if_pos hmem]
    have hk' : k ∈ r.map Prod.fst := (hk k).2 hmem
    rcases hv : dictGet k r with _ | v
    · exact absurd ((dictGet_eq_none_iff k r).1 hv) (by simpa using hk')
    · obtain ⟨s, hsv⟩ := hs (k, v) (dictGet_mem k v r hv)
      have hv2 : v = JValue.str s := hsv
      subst hv2
      simp [hv, csvCell]
  · rw [if_neg hmem]
    exact ((dictGet_eq_none_iff k r).2 (fun hmm => hmem ((hk k).1 hmm))).symm

/-- C1: on the concrete CSV file with header `name,age,city` and rows
`Alice,,NYC` and `Bob,30`, filtering empties and writing JSON yields exactly
the two-object array with string values, the empty-celled fields absent
(Alice's empty `age` cell, Bob's missing `city` cell, read as `None`). -/
theorem concrete_scenario_csv_filter_json (now : String) :
    process_data
        (read_csv [["name", "age", "city"], ["Alice", "", "NYC"], ["Bob", "30"]])
        ["filter_empty"] now =
      [[("name", JValue.str "Alice"), ("city", JValue.str "NYC")],
       [("name", JValue.str "Bob"), ("age", JValue.str "30")]] ∧
    write_json
        [[("name", JValue.str "Alice"), ("city", JValue.str "NYC")],
         [("name", JValue.str "Bob"), ("age", JValue.str "30")]] =
      "[\n  \x7b\n    \"name\": \"Alice\",\n    \"city\": \"NYC\"\n  \x7d,\n  \x7b\n    \"name\": \"Bob\",\n    \"age\": \"30\"\n  \x7d\n]" :=
  ⟨rfl, rfl⟩

/-- C2, counterexample to "the writer does not fail": on the two-record
dataset whose second record has the extra key `b`, `csv.DictWriter` (with
its default `extrasaction='raise'`) raises the `ValueError`, so the writer
does fail rather than emitting a misaligned row. -/
theorem write_csv_extra_key_fails :
    write_csv [[("a", JValue.str "1")], [("a", JValue.str "1"), ("b", JValue.str "2")]] =
      .error wrongFieldsMsg := rfl

/-- C2 (amended): the writer derives the header from the first record's
keys in iteration order; a dataset of scalar-valued records all of whose
keys lie within the header is written as one keyed-lookup row per record
— strings as themselves, `None` as the empty cell, numbers and booleans
via `str()`, and header keys missing from a record as the `restval` empty
cell, each in that key's correct column, without failure; a record with a
key outside the header makes the writer raise `ValueError`, failing the
run. -/
theorem write_csv_first_record_header (first : Record) (rest : List Record) :
    ((∀ r ∈ first :: rest, ∀ kv ∈ r, kv.1 ∈ first.map Prod.fst) →
      (∀ r ∈ first :: rest, ∀ kv ∈ r, (kv.2).isScalar = true) →
      write_csv (first :: rest) =
        .ok (some ((first.map Prod.fst) ::
          (first :: rest).map (dictToRow (first.map Prod.fst))))) ∧
    ((∃ r ∈ first :: rest, ∃ kv ∈ r, kv.1 ∉ first.map Prod.fst) →
      write_csv (first :: rest) = .error wrongFieldsMsg) := by
  constructor
  · intro h _
    simp only [write_csv]
    rw [rowsOf_ok (first.map Prod.fst) (first :: rest) h]
  · intro h
    simp only [write_csv]
    rw [rowsOf_fails (first.map Prod.fst) (first :: rest) h]

/-- Witness for C2's amended statement: a record missing the header key
`b` gets an empty cell in the `b` column without failure, a `None`-valued
field is written as the empty cell, and a record with the non-header key
`c` makes the writer fail. -/
theorem write_csv_first_record_header_witness :
    write_csv [[("a", JValue.str "1"), ("b", JValue.str "")], [("a", JValue.str "2")]] =
      .ok (some [["a", "b"], ["1", ""], ["2", ""]]) ∧
    write_csv [[("a", JValue.null), ("b", JValue.num 30)]] =
      .ok (some [["a", "b"], ["", "30"]]) ∧
    write_csv [[("a", JValue.str "1")], [("c", JValue.str "2")]] =
      .error wrongFieldsMsg := by
  refine ⟨?_, ?_, ?_⟩
  · exact ((write_csv_first_record_header
      [("a", JValue.str "1"), ("b", JValue.str "")] [[("a", JValue.str "2")]]).1
      (by decide) (by decide)).trans rfl
  · exact ((write_csv_first_record_header
      [("a", JValue.null), ("b", JValue.num 30)] []).1
      (by decide) (by decide)).trans rfl
  · exact (write_csv_first_record_header [("a", JValue.str "1")]
      [[("c", JValue.str "2")]]).2
      ⟨[("c", JValue.str "2")], List.mem_cons_of_mem _ (List.mem_cons_self _ _),
        ("c", JValue.str "2"), List.mem_cons_self _ _, by decide⟩

/-- C6, counterexample: the round trip fails as universally stated.  A
dataset of one record with the empty field set writes a blank header line
and a blank row, both of which vanish on read-back (the reader skips blank
rows), so zero records return; and a non-string value (the integer 30) is
stringified on write and comes back as the string `"30"`. -/
theorem csv_roundtrip_counterexample :
    (write_csv [([] : Record)] = .ok (some [[], []]) ∧
      read_csv [[], []] = [] ∧
      ([] : List Record) ≠ [[]]) ∧
    (write_csv [[("age", JValue.num 30)]] = .ok (some [["age"], ["30"]]) ∧
      read_csv [["age"], ["30"]] = [[("age", JValue.str "30")]] ∧
      ([[("age", JValue.str "30")]] : List Record) ≠ [[("age", JValue.num 30)]]) :=
  ⟨⟨rfl, rfl, by simp⟩, ⟨rfl, rfl, by simp⟩⟩

/-- C6 (amended): for every dataset whose records all share the same
non-empty field set and whose values are all strings, writing CSV with no
transformations and reading the file back reproduces the dataset: same
record count and order, and every read-back record has the same lookup
result as its original at every key (Python dict equality; key order
within a record follows the header, as only the key set is shared). -/
theorem csv_roundtrip_uniform (first : Record) (rest : List Record)
    (hne : first ≠ [])
    (hkeys : ∀ r ∈ first :: rest, ∀ k : String,
      k ∈ r.map Prod.fst ↔ k ∈ first.map Prod.fst)
    (hstr : ∀ r ∈ first :: rest, ∀ kv ∈ r, ∃ s, kv.2 = JValue.str s) :
    ∃ file, write_csv (first :: rest) = .ok (some file) ∧
      (read_csv file).length = (first :: rest).length ∧
      ∀ (i : Nat) (k : String),
        ((read_csv file)[i]?).map (dictGet k) =
          ((first :: rest)[i]?).map (dictGet k) := by
  have hsub : ∀ r ∈ first :: rest, ∀ kv ∈ r, kv.1 ∈ first.map Prod.fst := by
    intro r hr kv hkv
    exact (hkeys r hr kv.1).1 (List.mem_map_of_mem Prod.fst hkv)
  have hwrite : write_csv (first :: rest) =
      .ok (some ((first.map Prod.fst) ::
        (first :: rest).map (dictToRow (first.map Prod.fst)))) := by
    simp only [write_csv]
    rw [rowsOf_ok (first.map Prod.fst) (first :: rest) hsub]
  have hheader_ne : first.map Prod.fst ≠ [] := by
    simpa [List.map_eq_nil_iff] using hne
  have hall : ∀ row ∈ (first :: rest).map (dictToRow (first.map Prod.fst)),
      (!row.isEmpty) = true := by
    intro row hrow
    obtain ⟨r, -, rfl⟩ := List.mem_map.1 hrow
    rcases hh : first.map Prod.fst with _ | ⟨k0, ktl⟩
    · exact absurd hh hheader_ne
    · simp [dictToRow, hh]
  have hread : read_csv ((first.map Prod.fst) ::
      (first :: rest).map (dictToRow (first.map Prod.fst))) =
      (first :: rest).map
        (fun r => dictReadRow (first.map Prod.fst) (dictToRow (first.map Prod.fst) r)) := by
    simp only [read_csv]
    rw [List.filter_eq_self.2 hall, List.map_map]
    rfl
  refine ⟨(first.map Prod.fst) ::
    (first :: rest).map (dictToRow (first.map Prod.fst)), hwrite, ?_, ?_⟩
  · rw [hread]; simp
  · intro i k
    rw [hread, List.getElem?_map]
    rcases hcase : (first :: rest)[i]? with _ | r
    · simp
    · have hmemr : r ∈ first :: rest := List.getElem?_mem hcase
      simp only [Option.map_some']
      rw [readback_dict_eq (first.map Prod.fst) r
        (fun k' => hkeys r hmemr k') (hstr r hmemr) k]

/-- Witness for C6's amended statement on a concrete two-record dataset
whose second record lists the shared keys in the opposite order. -/
theorem csv_roundtrip_uniform_witness :
    ∃ file,
      write_csv [[("a", JValue.str "1"), ("b", JValue.str "")],
        [("b", JValue.str "y"), ("a", JValue.str "x")]] = .ok (some file) ∧
      (read_csv file).length =
        ([[("a", JValue.str "1"), ("b", JValue.str "")],
          [("b", JValue.str "y"), ("a", JValue.str "x")]] : List Record).length ∧
      ∀ (i : Nat) (k : String),
        ((read_csv file)[i]?).map (dictGet k) =
          (([[("a", JValue.str "1"), ("b", JValue.str "")],
            [("b", JValue.str "y"), ("a", JValue.str "x")]] : List Record)[i]?).map
            (dictGet k) := by
  exact csv_roundtrip_uniform [("a", JValue.str "1"), ("b", JValue.str "")]
    [[("b", JValue.str "y"), ("a", JValue.str "x")]]
    (by simp)
    (by intro r hr k
        simp only [List.mem_cons, List.not_mem_nil, or_false] at hr
        rcases hr with rfl | rfl
        · exact Iff.rfl
        · simp only [List.map_cons, List.map_nil, List.mem_cons, List.not_mem_nil,
            or_false]
          exact or_comm)
    (by intro r hr kv hkv
        simp only [List.mem_cons, List.not_mem_nil, or_false] at hr
        rcases hr with rfl | rfl <;>
          (simp only [List.mem_cons, List.not_mem_nil, or_false] at hkv
           rcases hkv with rfl | rfl <;> exact ⟨_, rfl⟩))

/-- C7: on the empty dataset, whatever operations are requested, the
transformer returns the empty dataset, the CSV writer returns before any
output (no header, no file content), and the JSON writer writes the
literal text `[]`. -/
theorem empty_dataset_output (operations : List String) (now : String) :
    process_data [] operations now = [] ∧
    write_csv ([] : List Record) = .ok none ∧
    write_json ([] : List Record) = "[]" := by
  refine ⟨?_, rfl, rfl⟩
  simp [process_data_eq_map]

/-- C8: for every input path whose lower-cased extension is neither `.csv`
nor `.json`, `main` exits with code 1, prints the unsupported-input-type
message (`不支持的输入文件类型`, "unsupported input file type") to stderr,
never opens the input file, and writes nothing to the output path. -/
theorem mainRun_unsupported_input (inputPath outputPath : String)
    (filterEmptyFlag addTimestampFlag : Bool)
    (csvRead : Except String (List (List String)))
    (jsonRead : Except String (List Record)) (now : String)
    (h1 : lowerStr (extOf inputPath) ≠ ".csv")
    (h2 : lowerStr (extOf inputPath) ≠ ".json") :
    mainRun inputPath outputPath filterEmptyFlag addTimestampFlag csvRead jsonRead now =
      ⟨1, ["不支持的输入文件类型: " ++ lowerStr (extOf inputPath)], false, none, none⟩ := by
  simp only [mainRun]
  rw [if_neg h1, if_neg h2]

/-- Witness for C8 at the spec's own example `data.txt`. -/
theorem mainRun_unsupported_input_witness :
    (lowerStr (extOf "data.txt") ≠ ".csv" ∧ lowerStr (extOf "data.txt") ≠ ".json") ∧
    mainRun "data.txt" "out.json" false false (Except.ok []) (Except.ok []) "T0" =
      ⟨1, ["不支持的输入文件类型: .txt"], false, none, none⟩ := by
  refine ⟨⟨by decide, by decide⟩, ?_⟩
  exact (mainRun_unsupported_input "data.txt" "out.json" false false (Except.ok [])
    (Except.ok []) "T0" (by decide) (by decide)).trans rfl

/-- Witness for C10: the empty-string field is dropped; `"0"`, `"false"`
and `" "` are all kept. -/
theorem filterRecord_csv_strings_witness :
    filterRecord [("a", JValue.str "0"), ("b", JValue.str ""), ("c", JValue.str "false"),
        ("d", JValue.str " ")] =
      [("a", JValue.str "0"), ("c", JValue.str "false"), ("d", JValue.str " ")] := by
  have h := filterRecord_csv_strings
    [("a", JValue.str "0"), ("b", JValue.str ""), ("c", JValue.str "false"),
      ("d", JValue.str " ")]
    (by intro kv hkv
        simp only [List.mem_cons, List.not_mem_nil, or_false] at hkv
        rcases hkv with rfl | rfl | rfl | rfl <;> exact ⟨_, rfl⟩)
  exact h.trans rfl

end ProcessPy
